import Mathlib

/-!
NetworkMonitor: capture, filter, replay and retry queues.

A shallow embedding of `NetworkMonitor.h` (class `NetworkMonitor`).

Conventions of the embedding:

* `Queue<Packet>` is a FIFO sequence, embedded as a `List` whose head is the
  front of the queue.  A loop `while (!q.isEmpty()) { p = q.front(); q.dequeue(); ... }`
  becomes a recursion on the list: the pattern `p :: rest` is `front` followed
  by `dequeue`.
* The C++ `int` counters and identifiers are embedded as unbounded `Int`;
  signed overflow (undefined behaviour in C++) is outside the embedding.
* `send(sock, ...)` is an external facility.  Its behaviour is an arbitrary
  function `Transmit`: the value returned by the `k`-th call made on the
  session, given the frame handed to it.  The session carries a ghost log
  `sendLog` of the frames handed to `send`, in call order.
* `recvfrom` is external as well: one `capturePackets` call is run on the
  finite list of read results delivered before its loop ended.
* Console output is not embedded, except for the counters an operation reports.
-/

namespace NetMon

/-! Data model -/

/-- Modelled from the spec: `Packet.h` is not among the sources.  The fields are
the ones `NetworkMonitor.h` reads (`id`, `srcIP`, `dstIP`, `protocol`, `size`,
`data`, `retryCount`, `getEstimatedDelay()`, `getTimestampStr()`), with the
meaning the spec gives to the frame record; `retryCount` starts at 0. -/
structure Packet where
  id : Int
  timestamp : Nat
  srcIP : String
  dstIP : String
  protocol : String
  size : Nat
  data : List Nat
  estimatedDelay : Nat
  retryCount : Nat
deriving DecidableEq

/-- Modelled from the spec: `Packet::canRetry()` of the missing `Packet.h`;
a frame with `retryCount ≥ 2` is never retried again. -/
def Packet.canRetry (p : Packet) : Bool := decide (p.retryCount < 2)

/-- Modelled from the spec: `Packet::incrementRetry()` of the missing
`Packet.h`; the retry counter goes up by one, nothing else changes. -/
def Packet.incrementRetry (p : Packet) : Packet :=
  { p with retryCount := p.retryCount + 1 }

/-- Modelled from the spec: the constructor `Packet(id, buffer, size)` of the
missing `Packet.h`: the payload is the first `size` bytes of the buffer, the
structured fields are empty until dissection, `retryCount` starts at 0. -/
def Packet.create (id : Int) (buffer : List Nat) (size : Nat) (time : Nat) : Packet :=
  { id := id, timestamp := time, srcIP := "", dstIP := "", protocol := "",
    size := size, data := buffer.take size, estimatedDelay := 0, retryCount := 0 }

/-- Modelled from the spec: `Queue.h` is not among the sources; an ordered queue
is a sequence with strict insertion-order (FIFO) semantics.  The head of the
list is the front. -/
abbrev Queue (α : Type) := List α

/-- Modelled from the spec: `Queue::enqueue` appends at the back. -/
def Queue.enqueue {α : Type} (q : Queue α) (x : α) : Queue α := q ++ [x]

/-- Modelled from the spec: `Queue::isEmpty`. -/
def Queue.isEmpty {α : Type} (q : Queue α) : Bool := List.isEmpty q

/-- Modelled from the spec: `Queue::size`. -/
def Queue.size {α : Type} (q : Queue α) : Nat := List.length q

/-- Modelled from the spec: `Queue::clear`. -/
def Queue.clear {α : Type} (_q : Queue α) : Queue α := []

/-- The structured fields the analyzer fills in. -/
structure Dissection where
  srcIP : String
  dstIP : String
  protocol : String
  estimatedDelay : Nat

/-- Modelled from the spec: `PacketAnalyzer.h` is not among the sources;
`dissect` turns the raw frame into the address pair, protocol tag and
estimated delay. -/
abbrev Analyzer := Packet → Dissection

/-- The effect of `analyzer.dissect(p)` on the frame `p`. -/
def dissect (analyzer : Analyzer) (p : Packet) : Packet :=
  let d := analyzer p
  { p with srcIP := d.srcIP, dstIP := d.dstIP, protocol := d.protocol,
           estimatedDelay := d.estimatedDelay }

/-- The members of `NetworkMonitor` the operations read and write, and the
ghost log of the frames handed to `send`. -/
structure NetworkMonitor where
  packetQueue : Queue Packet
  filteredQueue : Queue Packet
  backupQueue : Queue Packet
  oversizedThreshold : Int
  oversizedCount : Int
  sendLog : List Packet

/-- The session right after the constructor: empty queues, threshold 5. -/
def NetworkMonitor.init : NetworkMonitor :=
  { packetQueue := [], filteredQueue := [], backupQueue := [],
    oversizedThreshold := 5, oversizedCount := 0, sendLog := [] }

/-- Behaviour of `send`: the value returned by the call number `k` (counted
from 0 over the session) when handed frame `p`. -/
abbrev Transmit := Nat → Packet → Int

/-- The failure test of both replay and retry:
`sent < 0 || sent != static_cast<ssize_t>(p.size)`. -/
def sendFailed (sent : Int) (p : Packet) : Bool :=
  decide (sent < 0) || decide (sent ≠ (p.size : Int))

/-! capturePackets -/

/-- One result of `recvfrom`: the returned length, the buffer contents and the
clock at that moment. -/
structure Read where
  size : Int
  buffer : List Nat
  time : Nat

/-- The body of the capture loop, run over the reads of one call; `id` is the
local counter. -/
def captureLoop (analyzer : Analyzer) : List Read → NetworkMonitor → Int → NetworkMonitor × Int
  | [], m, id => (m, id)
  | r :: rs, m, id =>
    if r.size > 0 then
      let p := dissect analyzer (Packet.create id r.buffer r.size.toNat r.time)
      captureLoop analyzer rs { m with packetQueue := m.packetQueue.enqueue p } (id + 1)
    else
      captureLoop analyzer rs m id

/-- `NetworkMonitor::capturePackets`: `int id = 1;` then the loop.  Returns the
session and the reported total `id - 1`. -/
def capturePackets (analyzer : Analyzer) (reads : List Read) (m : NetworkMonitor) :
    NetworkMonitor × Int :=
  let r := captureLoop analyzer reads m 1
  (r.1, r.2 - 1)

/-! filterPackets -/

/-- The variables the filter loop updates. -/
structure FilterLocals where
  filteredQueue : Queue Packet
  oversizedCount : Int
  matchCount : Int
  skippedOversized : Int

/-- One iteration of the filter loop on the dequeued frame `p`. -/
def filterStep (src dst : String) (threshold : Int) (st : FilterLocals) (p : Packet) :
    FilterLocals :=
  if p.srcIP = src ∧ p.dstIP = dst then
    if p.size > 1500 then
      let oc := st.oversizedCount + 1
      if oc > threshold then
        { st with oversizedCount := oc, skippedOversized := st.skippedOversized + 1 }
      else
        { st with oversizedCount := oc,
                  filteredQueue := st.filteredQueue.enqueue p,
                  matchCount := st.matchCount + 1 }
    else
      { st with filteredQueue := st.filteredQueue.enqueue p,
                matchCount := st.matchCount + 1 }
  else
    st

/-- The filter loop over the copy `temp` of the captured queue. -/
def filterLoop (src dst : String) (threshold : Int) : Queue Packet → FilterLocals → FilterLocals
  | [], st => st
  | p :: temp, st => filterLoop src dst threshold temp (filterStep src dst threshold st p)

/-- What `filterPackets` prints at the end. -/
structure FilterReport where
  matchCount : Int
  skippedOversized : Int
deriving DecidableEq

/-- `NetworkMonitor::filterPackets`. -/
def filterPackets (src dst : String) (m : NetworkMonitor) : NetworkMonitor × FilterReport :=
  let temp := m.packetQueue
  let st0 : FilterLocals :=
    { filteredQueue := Queue.clear m.filteredQueue, oversizedCount := 0,
      matchCount := 0, skippedOversized := 0 }
  let st := filterLoop src dst m.oversizedThreshold temp st0
  ({ m with filteredQueue := st.filteredQueue, oversizedCount := st.oversizedCount },
   { matchCount := st.matchCount, skippedOversized := st.skippedOversized })

/-! retryBackupPackets -/

/-- The retry loop: the first argument is the backup queue still to be drained,
the last one is the local `tempBackup`. -/
def retryLoop (send : Transmit) :
    Queue Packet → NetworkMonitor → Queue Packet → NetworkMonitor × Queue Packet
  | [], m, tempBackup => ({ m with backupQueue := [] }, tempBackup)
  | p :: rest, m, tempBackup =>
    let m1 := { m with backupQueue := rest }
    if !p.canRetry then
      retryLoop send rest m1 tempBackup
    else
      let p1 := p.incrementRetry
      if p1.size > 1500 then
        retryLoop send rest m1 tempBackup
      else
        let sent := send m1.sendLog.length p1
        let m2 := { m1 with sendLog := m1.sendLog ++ [p1] }
        if sendFailed sent p1 then
          retryLoop send rest m2 (tempBackup.enqueue p1)
        else
          retryLoop send rest m2 tempBackup

/-- `NetworkMonitor::retryBackupPackets`. -/
def retryBackupPackets (send : Transmit) (m : NetworkMonitor) : NetworkMonitor :=
  if m.backupQueue.isEmpty then m
  else
    let r := retryLoop send m.backupQueue m []
    { r.1 with backupQueue := r.2 }

/-! replayPackets -/

/-- The counters of the replay loop. -/
structure ReplayCounts where
  successCount : Int
  failureCount : Int
deriving DecidableEq

/-- The replay loop: the first argument is the filtered queue still to be
drained. -/
def replayLoop (send : Transmit) :
    Queue Packet → NetworkMonitor → ReplayCounts → NetworkMonitor × ReplayCounts
  | [], m, c => ({ m with filteredQueue := [] }, c)
  | p :: rest, m, c =>
    let sent := send m.sendLog.length p
    let m1 := { m with filteredQueue := rest, sendLog := m.sendLog ++ [p] }
    if sendFailed sent p then
      replayLoop send rest { m1 with backupQueue := m1.backupQueue.enqueue p }
        { c with failureCount := c.failureCount + 1 }
    else
      replayLoop send rest m1 { c with successCount := c.successCount + 1 }

/-- The state and counters of `replayPackets` when its `while` loop has ended,
before the summary and the automatic retry. -/
def replayDrain (send : Transmit) (m : NetworkMonitor) : NetworkMonitor × ReplayCounts :=
  replayLoop send m.filteredQueue m { successCount := 0, failureCount := 0 }

/-- `NetworkMonitor::replayPackets`.  The summary is `none` on the early
return (nothing to replay), else the reported success and failure totals. -/
def replayPackets (send : Transmit) (m : NetworkMonitor) :
    NetworkMonitor × Option ReplayCounts :=
  if m.filteredQueue.isEmpty then (m, none)
  else
    let r := replayDrain send m
    if r.2.failureCount > 0 then
      (retryBackupPackets send r.1, some r.2)
    else
      (r.1, some r.2)

/-! displayPackets and displayPacketDetails -/

/-- The listing loop of `displayPackets`: `while (!temp.isEmpty() && count < 50)`.
Returns what is left of `temp`, the counter and the frames printed, in order. -/
def displayLoop : Queue Packet → Int → List Packet → Queue Packet × Int × List Packet
  | [], count, listed => ([], count, listed)
  | p :: temp, count, listed =>
    if count < 50 then displayLoop temp (count + 1) (listed ++ [p])
    else (p :: temp, count, listed)

/-- What `displayPackets` prints: the frames listed, in order, and the number in
the line `... and N more packets` when that line is printed. -/
structure Listing where
  listed : List Packet
  remaining : Option Int
deriving DecidableEq

/-- `NetworkMonitor::displayPackets`. -/
def displayPackets (m : NetworkMonitor) : NetworkMonitor × Listing :=
  if m.packetQueue.isEmpty then (m, { listed := [], remaining := none })
  else
    let r := displayLoop m.packetQueue 0 []
    if !r.1.isEmpty then
      (m, { listed := r.2.2, remaining := some ((m.packetQueue.size : Int) - 50) })
    else
      (m, { listed := r.2.2, remaining := none })

/-- The search loop of `displayPacketDetails` over the copy `temp`: the frame
handed to the analyzer for rendering, or `none` when the loop ends with
`found == false`. -/
def detailsLoop (packetId : Int) : Queue Packet → Option Packet
  | [] => none
  | p :: temp => if p.id = packetId then some p else detailsLoop packetId temp

/-- `NetworkMonitor::displayPacketDetails`: the session afterwards and the frame
rendered; `none` is the not-found message. -/
def displayPacketDetails (packetId : Int) (m : NetworkMonitor) : NetworkMonitor × Option Packet :=
  (m, detailsLoop packetId m.packetQueue)

/-! Sequences of operations on one session -/

/-- One operator command, with the behaviour of the external facilities during
it: the analyzer and the reads of a capture, the address pair of a filter, the
transmit facility of a replay or a retry. -/
inductive Op where
  | capture (analyzer : Analyzer) (reads : List Read)
  | filter (src dst : String)
  | replay (send : Transmit)
  | retry (send : Transmit)

/-- The session after one command. -/
def Op.apply (m : NetworkMonitor) : Op → NetworkMonitor
  | Op.capture analyzer reads => (capturePackets analyzer reads m).1
  | Op.filter src dst => (filterPackets src dst m).1
  | Op.replay send => (replayPackets send m).1
  | Op.retry send => retryBackupPackets send m

/-- The session after a sequence of commands, starting from `m`. -/
def runOps (ops : List Op) (m : NetworkMonitor) : NetworkMonitor :=
  ops.foldl Op.apply m

/-- The reads of positive length, in read order. -/
def positiveReads (reads : List Read) : List Read :=
  reads.filter (fun r => decide (0 < r.size))

/-- The frame built from a read and the id given to it: constructed from the
buffer and the returned length, then dissected. -/
def frameOfRead (analyzer : Analyzer) (kr : Nat × Read) : Packet :=
  dissect analyzer (Packet.create (kr.1 : Int) kr.2.buffer kr.2.size.toNat kr.2.time)

/-- One frame per read of positive length, in read order, numbered `k`,
`k + 1`, ... -/
def framesFrom (analyzer : Analyzer) (k : Nat) (reads : List Read) : List Packet :=
  ((positiveReads reads).enumFrom k).map (frameOfRead analyzer)

/-- The frames one capture call appends: one per read of positive length, in
read order, numbered 1, 2, ... -/
def capturedFrames (analyzer : Analyzer) (reads : List Read) : List Packet :=
  framesFrom analyzer 1 reads

/-- Three consecutive retry passes under one transmit facility. -/
def retryThrice (send : Transmit) (m : NetworkMonitor) : NetworkMonitor :=
  retryBackupPackets send (retryBackupPackets send (retryBackupPackets send m))

/-! The filter policy as the specification words it -/

/-- The frame matches the address pair: exact equality on both fields. -/
def matchesPair (src dst : String) (p : Packet) : Bool :=
  decide (p.srcIP = src) && decide (p.dstIP = dst)

/-- The frame is oversized: more than 1500 bytes. -/
def isOversized (p : Packet) : Bool := decide (1500 < p.size)

/-- Number of matching oversized frames strictly before position `i` of the
captured queue `q`. -/
def oversizedBefore (src dst : String) (q : List Packet) (i : Nat) : Nat :=
  ((q.take i).filter (fun p => matchesPair src dst p && isOversized p)).length

/-- The frame `p` at position `i` of `q` is admitted: it matches, and it either
has size at most 1500 or is among the first `T` matching oversized frames. -/
def specAdmitted (src dst : String) (T : Int) (q : List Packet) (i : Nat) (p : Packet) : Bool :=
  matchesPair src dst p &&
    (!isOversized p || decide ((oversizedBefore src dst q i : Int) < T))

/-- The frame `p` at position `i` of `q` is skipped as oversized: it matches, is
oversized and is beyond the first `T` matching oversized frames. -/
def specSkipped (src dst : String) (T : Int) (q : List Packet) (i : Nat) (p : Packet) : Bool :=
  matchesPair src dst p && isOversized p &&
    !decide ((oversizedBefore src dst q i : Int) < T)

/-- The admitted frames of `q`, in queue order. -/
def specFilteredQueue (src dst : String) (T : Int) (q : List Packet) : List Packet :=
  (q.enum.filter (fun ip => specAdmitted src dst T q ip.1 ip.2)).map Prod.snd

/-- The number of frames of `q` skipped as oversized. -/
def specSkippedCount (src dst : String) (T : Int) (q : List Packet) : Nat :=
  (q.enum.filter (fun ip => specSkipped src dst T q ip.1 ip.2)).length

/-! Replay and retry as the specification words them -/

/-- The frames of `l` whose transmission fails when they are handed to `send`
one after another as the calls number `k`, `k + 1`, ...; in the order of `l`,
each frame unchanged. -/
def failedFrom (send : Transmit) (k : Nat) (l : List Packet) : List Packet :=
  ((l.enumFrom k).filter (fun kp => sendFailed (send kp.1 kp.2) kp.2)).map Prod.snd

/-- The number of frames of `l` for which `send` reports having sent exactly
the frame's size, when they are handed over as the calls number `k`, `k + 1`, ... -/
def sentExactlyCount (send : Transmit) (k : Nat) (l : List Packet) : Nat :=
  ((l.enumFrom k).filter (fun kp => decide (send kp.1 kp.2 = (kp.2.size : Int)))).length

/-- The frame is attempted by a retry pass: retry count below 2 and size at
most 1500. -/
def retryEligible (p : Packet) : Bool :=
  decide (p.retryCount < 2) && decide (p.size ≤ 1500)

/-- The frames a retry pass hands to `send`, in order: the eligible frames of
the backup queue, each with its retry count raised by 1. -/
def retryCalls (backup : List Packet) : List Packet :=
  (backup.filter retryEligible).map (fun p => { p with retryCount := p.retryCount + 1 })

/-- The backup queue after one retry pass, when `k` calls to `send` were made
before it: the attempted frames whose transmission failed. -/
def specRetryBackup (send : Transmit) (k : Nat) (backup : List Packet) : List Packet :=
  failedFrom send k (retryCalls backup)

/-- The frames handed to `send` between the session states `before` and `after`. -/
def callsBetween (before after : NetworkMonitor) : List Packet :=
  after.sendLog.drop before.sendLog.length

/-- A transmit facility that fails on every call. -/
def alwaysFail : Transmit := fun _ _ => -1

/-! Concrete sessions used as test inputs -/

/-- A captured frame from address `A` to address `B` with the given id and size. -/
def frameAB (id : Int) (size : Nat) : Packet :=
  { id := id, timestamp := 0, srcIP := "A", dstIP := "B", protocol := "TCP",
    size := size, data := [], estimatedDelay := 1, retryCount := 0 }

/-- Seven matching 1600-byte frames captured, threshold 5 (the constructor's value). -/
def sevenOversized : NetworkMonitor :=
  { NetworkMonitor.init with
    packetQueue := [frameAB 1 1600, frameAB 2 1600, frameAB 3 1600, frameAB 4 1600,
                    frameAB 5 1600, frameAB 6 1600, frameAB 7 1600] }

/-- Frames of sizes 100, 1600 and 2000 captured, threshold 0. -/
def roundTrip : NetworkMonitor :=
  { NetworkMonitor.init with
    packetQueue := [frameAB 1 100, frameAB 2 1600, frameAB 3 2000],
    oversizedThreshold := 0 }

/-- A frame from `C` to `B` and a frame from `A` to `B` captured. -/
def mixedPairs : NetworkMonitor :=
  { NetworkMonitor.init with
    packetQueue := [{ frameAB 7 64 with srcIP := "C" }, frameAB 1 100] }

/-- The session `sevenOversized` with leftovers of earlier operations in the
filtered queue, the backup queue and `oversizedCount`. -/
def sevenDirty : NetworkMonitor :=
  { sevenOversized with
    filteredQueue := [frameAB 9 40], backupQueue := [frameAB 8 50], oversizedCount := 3 }

/-- Two frames captured and filtered for the pair `(A, B)`: a 100-byte frame and
a 1600-byte frame, both admitted under threshold 5 and waiting for replay. -/
def replayReady : NetworkMonitor :=
  (filterPackets "A" "B"
    { NetworkMonitor.init with packetQueue := [frameAB 1 100, frameAB 2 1600] }).1

/-- Two frames of at most 1500 bytes waiting in the backup queue with
`retryCount` 0. -/
def backupFresh : NetworkMonitor :=
  { NetworkMonitor.init with backupQueue := [frameAB 1 100, frameAB 2 200] }

/-- An analyzer that reports the pair `(A, B)` for every frame. -/
def plainAnalyzer : Analyzer :=
  fun _ => { srcIP := "A", dstIP := "B", protocol := "TCP", estimatedDelay := 1 }

/-- The reads of a capture that receives a single 60-byte frame. -/
def oneRead : List Read := [{ size := 60, buffer := [], time := 0 }]

/-- A transmit facility that sends every frame in full. -/
def alwaysSend : Transmit := fun _ p => (p.size : Int)

/-- A frame waiting in the backup queue after one retry, and one captured and
filtered frame waiting for replay. -/
def backupWaiting : NetworkMonitor :=
  { NetworkMonitor.init with
    packetQueue := [frameAB 3 300],
    filteredQueue := [frameAB 3 300],
    backupQueue := [{ frameAB 1 100 with retryCount := 1 }] }

/-- The frame `p` is the captured frame `c`, up to its retry counter. -/
def copyOf (p c : Packet) : Prop := p = { c with retryCount := p.retryCount }

/-- The filtered and backup queues hold copies of frames of the captured queue:
every filtered frame is in the captured queue, every backup frame is a captured
frame up to its retry counter. -/
def QueuesCopyCaptured (m : NetworkMonitor) : Prop :=
  (∀ p ∈ m.filteredQueue, p ∈ m.packetQueue) ∧
  (∀ p ∈ m.backupQueue, ∃ c ∈ m.packetQueue, copyOf p c)

/-- The commands: capture one frame, filter its pair. -/
def captureThenFilter : List Op :=
  [Op.capture plainAnalyzer oneRead, Op.filter "A" "B"]

/-- The commands: capture one frame, filter its pair, replay with every
transmission failing, filter the pair again. -/
def captureReplayFilter : List Op :=
  [Op.capture plainAnalyzer oneRead, Op.filter "A" "B", Op.replay alwaysFail,
   Op.filter "A" "B"]

/-! Filter: the loop computes the policy -/

theorem filterLoop_snoc (src dst : String) (T : Int) (q : List Packet) (x : Packet)
    (st : FilterLocals) :
    filterLoop src dst T (q ++ [x]) st = filterStep src dst T (filterLoop src dst T q st) x := by
  induction q generalizing st with
  | nil => rfl
  | cons p q ih => simpa [filterLoop] using ih (filterStep src dst T st p)

theorem oversizedBefore_snoc (src dst : String) (q : List Packet) (x : Packet) (i : Nat)
    (h : i ≤ q.length) :
    oversizedBefore src dst (q ++ [x]) i = oversizedBefore src dst q i := by
  unfold oversizedBefore
  rw [List.take_append_of_le_length h]

theorem specFilteredQueue_snoc (src dst : String) (T : Int) (q : List Packet) (x : Packet) :
    specFilteredQueue src dst T (q ++ [x]) =
      specFilteredQueue src dst T q ++
        (if specAdmitted src dst T q q.length x then [x] else []) := by
  unfold specFilteredQueue
  rw [List.enum_append, List.filter_append, List.map_append]
  congr 1
  · congr 1
    apply List.filter_congr
    intro ip hip
    have hlt := List.fst_lt_of_mem_enum hip
    simp only [specAdmitted, oversizedBefore_snoc src dst q x ip.1 (Nat.le_of_lt hlt)]
  · simp only [List.enumFrom_cons, List.enumFrom_nil, List.filter_cons, List.filter_nil,
      specAdmitted, oversizedBefore_snoc src dst q x q.length (Nat.le_refl _)]
    split <;> simp

theorem specSkippedCount_snoc (src dst : String) (T : Int) (q : List Packet) (x : Packet) :
    specSkippedCount src dst T (q ++ [x]) =
      specSkippedCount src dst T q +
        (if specSkipped src dst T q q.length x then 1 else 0) := by
  unfold specSkippedCount
  rw [List.enum_append, List.filter_append, List.length_append]
  congr 1
  · congr 1
    apply List.filter_congr
    intro ip hip
    have hlt := List.fst_lt_of_mem_enum hip
    simp only [specSkipped, oversizedBefore_snoc src dst q x ip.1 (Nat.le_of_lt hlt)]
  · simp only [List.enumFrom_cons, List.enumFrom_nil, List.filter_cons, List.filter_nil,
      specSkipped, oversizedBefore_snoc src dst q x q.length (Nat.le_refl _)]
    split <;> simp

theorem oversizedBefore_length_snoc (src dst : String) (q : List Packet) (x : Packet) :
    oversizedBefore src dst (q ++ [x]) (q ++ [x]).length =
      oversizedBefore src dst q q.length +
        (if matchesPair src dst x && isOversized x then 1 else 0) := by
  unfold oversizedBefore
  rw [List.take_length, List.take_length, List.filter_append, List.length_append]
  congr 1
  simp only [List.filter_cons, List.filter_nil]
  split <;> simp

/-- Loop invariant of the filter loop, started from the cleared locals. -/
theorem filterLoop_spec (src dst : String) (T : Int) (q : List Packet) :
    let st := filterLoop src dst T q
      { filteredQueue := [], oversizedCount := 0, matchCount := 0, skippedOversized := 0 }
    st.filteredQueue = specFilteredQueue src dst T q ∧
    st.oversizedCount = (oversizedBefore src dst q q.length : Int) ∧
    st.matchCount = ((specFilteredQueue src dst T q).length : Int) ∧
    st.skippedOversized = (specSkippedCount src dst T q : Int) := by
  induction q using List.reverseRecOn with
  | nil => simp [filterLoop, specFilteredQueue, specSkippedCount, oversizedBefore]
  | append_singleton q x ih =>
    simp only [] at ih ⊢
    obtain ⟨h1, h2, h3, h4⟩ := ih
    rw [filterLoop_snoc, specFilteredQueue_snoc, specSkippedCount_snoc,
      oversizedBefore_length_snoc]
    generalize filterLoop src dst T q _ = st at h1 h2 h3 h4
    simp only [filterStep, specAdmitted, specSkipped, matchesPair, isOversized, Queue.enqueue]
    by_cases hm : x.srcIP = src ∧ x.dstIP = dst
    · by_cases ho : 1500 < x.size
      · by_cases ht : st.oversizedCount + 1 > T
        · rw [h2] at ht
          have hc : T < (oversizedBefore src dst q q.length : Int) + 1 := ht
          have ht' : ¬ ((oversizedBefore src dst q q.length : Int) < T) := by omega
          simp [hm, ho, hc, ht', h1, h2, h3, h4]
        · rw [h2] at ht
          have hc : ¬ (T < (oversizedBefore src dst q q.length : Int) + 1) := ht
          have ht' : ((oversizedBefore src dst q q.length : Int) < T) := by omega
          simp [hm, ho, hc, ht', h1, h2, h3, h4]
      · simp [hm, ho, h1, h2, h3, h4]
    · have hm' : ¬ (x.srcIP = src ∧ x.dstIP = dst) := hm
      rw [not_and] at hm'
      by_cases hs : x.srcIP = src
      · have hd := hm' hs
        simp [hs, hd, h1, h2, h3, h4]
      · simp [hs, h1, h2, h3, h4]

/-- The filtered queue `filterPackets` leaves is the queue of admitted frames. -/
theorem filterPackets_filteredQueue (m : NetworkMonitor) (src dst : String) :
    (filterPackets src dst m).1.filteredQueue =
      specFilteredQueue src dst m.oversizedThreshold m.packetQueue :=
  (filterLoop_spec src dst m.oversizedThreshold m.packetQueue).1

/-- C1: after `filterPackets(src, dst)` the filtered queue is exactly, in captured
order, the frames matching the pair that have size at most 1500 or are among the
first `oversizedThreshold` matching oversized frames; the reported matched count
is the length of the filtered queue and the reported skipped count is the number
of matching oversized frames beyond the first `oversizedThreshold`. -/
theorem filterPackets_policy (m : NetworkMonitor) (src dst : String) :
    (filterPackets src dst m).1.filteredQueue =
        specFilteredQueue src dst m.oversizedThreshold m.packetQueue ∧
    (filterPackets src dst m).2.matchCount =
        ((filterPackets src dst m).1.filteredQueue.length : Int) ∧
    (filterPackets src dst m).2.skippedOversized =
        (specSkippedCount src dst m.oversizedThreshold m.packetQueue : Int) := by
  obtain ⟨h1, _, h3, h4⟩ := filterLoop_spec src dst m.oversizedThreshold m.packetQueue
  refine ⟨h1, ?_, h4⟩
  show (filterLoop src dst m.oversizedThreshold m.packetQueue _).matchCount =
    ((filterLoop src dst m.oversizedThreshold m.packetQueue _).filteredQueue.length : Int)
  exact h3.trans (by rw [← h1]; rfl)

/-- Witness for C1: seven matching 1600-byte frames with threshold 5 give the
first five frames, 5 matched and 2 skipped; sizes 100, 1600, 2000 with
threshold 0 give only the 100-byte frame, 1 matched and 2 skipped. -/
theorem filterPackets_policy_witness :
    ((filterPackets "A" "B" sevenOversized).1.filteredQueue =
        [frameAB 1 1600, frameAB 2 1600, frameAB 3 1600, frameAB 4 1600, frameAB 5 1600] ∧
      (filterPackets "A" "B" sevenOversized).2.matchCount = 5 ∧
      (filterPackets "A" "B" sevenOversized).2.skippedOversized = 2) ∧
    ((filterPackets "A" "B" roundTrip).1.filteredQueue = [frameAB 1 100] ∧
      (filterPackets "A" "B" roundTrip).2.matchCount = 1 ∧
      (filterPackets "A" "B" roundTrip).2.skippedOversized = 2) := by
  obtain ⟨a1, a2, a3⟩ := filterPackets_policy sevenOversized "A" "B"
  obtain ⟨b1, b2, b3⟩ := filterPackets_policy roundTrip "A" "B"
  have ea : specFilteredQueue "A" "B" sevenOversized.oversizedThreshold
      sevenOversized.packetQueue =
      [frameAB 1 1600, frameAB 2 1600, frameAB 3 1600, frameAB 4 1600, frameAB 5 1600] := by
    decide
  have sa : specSkippedCount "A" "B" sevenOversized.oversizedThreshold
      sevenOversized.packetQueue = 2 := by decide
  have eb : specFilteredQueue "A" "B" roundTrip.oversizedThreshold roundTrip.packetQueue =
      [frameAB 1 100] := by decide
  have sb : specSkippedCount "A" "B" roundTrip.oversizedThreshold roundTrip.packetQueue = 2 := by
    decide
  refine ⟨⟨a1.trans ea, ?_, ?_⟩, ⟨b1.trans eb, ?_, ?_⟩⟩
  · rw [a2, a1, ea]; rfl
  · rw [a3, sa]; rfl
  · rw [b2, b1, eb]; rfl
  · rw [b3, sb]; rfl

/-- C2: every frame in the filtered queue after `filterPackets(src, dst)` has
`srcIP` equal to `src` and `dstIP` equal to `dst`. -/
theorem filterPackets_sound (m : NetworkMonitor) (src dst : String) (p : Packet)
    (hp : p ∈ (filterPackets src dst m).1.filteredQueue) :
    p.srcIP = src ∧ p.dstIP = dst := by
  rw [filterPackets_filteredQueue m src dst] at hp
  unfold specFilteredQueue at hp
  obtain ⟨ip, hip, rfl⟩ := List.mem_map.mp hp
  have hadm := (List.mem_filter.mp hip).2
  simp only [specAdmitted, matchesPair, Bool.and_eq_true, decide_eq_true_eq] at hadm
  exact hadm.1

/-- Witness for C2: filtering a queue holding a frame from `A` to `B` and a
frame from `C` to `B` for the pair `(A, B)` keeps a frame, and it is from `A`
to `B`. -/
theorem filterPackets_sound_witness :
    frameAB 1 100 ∈ (filterPackets "A" "B" mixedPairs).1.filteredQueue ∧
    ((frameAB 1 100).srcIP = "A" ∧ (frameAB 1 100).dstIP = "B") :=
  ⟨by decide, filterPackets_sound mixedPairs "A" "B" (frameAB 1 100) (by decide)⟩

/-- C9: `filterPackets` is idempotent: running it a second time on the session
it produced gives the same session (so the same filtered queue and the same
`oversizedCount`) and the same matched and skipped counts. -/
theorem filterPackets_idempotent (m : NetworkMonitor) (src dst : String) :
    filterPackets src dst (filterPackets src dst m).1 = filterPackets src dst m := rfl

/-- C10: `filterPackets` leaves the captured queue and the backup queue as they
were, and its filtered queue, `oversizedCount` and reported counts are the same
from any two sessions that agree on the captured queue and the threshold. -/
theorem filterPackets_frame (m m' : NetworkMonitor) (src dst : String)
    (hq : m'.packetQueue = m.packetQueue)
    (ht : m'.oversizedThreshold = m.oversizedThreshold) :
    (filterPackets src dst m).1.packetQueue = m.packetQueue ∧
    (filterPackets src dst m).1.backupQueue = m.backupQueue ∧
    (filterPackets src dst m').1.filteredQueue = (filterPackets src dst m).1.filteredQueue ∧
    (filterPackets src dst m').1.oversizedCount = (filterPackets src dst m).1.oversizedCount ∧
    (filterPackets src dst m').2 = (filterPackets src dst m).2 := by
  refine ⟨rfl, rfl, ?_, ?_, ?_⟩ <;> simp only [filterPackets, Queue.clear, hq, ht]

/-- Witness for C10: a session whose filtered queue and `oversizedCount` are
already set filters to the same result as the fresh session with the same
captured queue. -/
theorem filterPackets_frame_witness :
    (filterPackets "A" "B" sevenOversized).1.packetQueue = sevenOversized.packetQueue ∧
    (filterPackets "A" "B" sevenOversized).1.backupQueue = sevenOversized.backupQueue ∧
    (filterPackets "A" "B" sevenDirty).1.filteredQueue =
      (filterPackets "A" "B" sevenOversized).1.filteredQueue ∧
    (filterPackets "A" "B" sevenDirty).1.oversizedCount =
      (filterPackets "A" "B" sevenOversized).1.oversizedCount ∧
    (filterPackets "A" "B" sevenDirty).2 = (filterPackets "A" "B" sevenOversized).2 :=
  filterPackets_frame sevenOversized sevenDirty "A" "B" rfl rfl

/-! Replay and retry: the loops -/

theorem failedFrom_nil (send : Transmit) (k : Nat) : failedFrom send k [] = [] := rfl

theorem failedFrom_cons (send : Transmit) (k : Nat) (p : Packet) (l : List Packet) :
    failedFrom send k (p :: l) =
      (if sendFailed (send k p) p then [p] else []) ++ failedFrom send (k + 1) l := by
  unfold failedFrom
  simp only [List.enumFrom_cons, List.filter_cons]
  split <;> simp

theorem sentExactlyCount_cons (send : Transmit) (k : Nat) (p : Packet) (l : List Packet) :
    sentExactlyCount send k (p :: l) =
      (if sendFailed (send k p) p then 0 else 1) + sentExactlyCount send (k + 1) l := by
  unfold sentExactlyCount sendFailed
  simp only [List.enumFrom_cons, List.filter_cons]
  by_cases h : send k p = (p.size : Int)
  · have h0 : ¬ ((p.size : Int) < 0) := by omega
    simp [h, h0]
    omega
  · simp [h]

theorem failed_add_sentExactly (send : Transmit) (k : Nat) (l : List Packet) :
    (failedFrom send k l).length + sentExactlyCount send k l = l.length := by
  induction l generalizing k with
  | nil => rfl
  | cons p l ih =>
    rw [failedFrom_cons, sentExactlyCount_cons, List.length_append, List.length_cons]
    have := ih (k + 1)
    split <;> simp <;> omega

theorem retryCalls_cons (p : Packet) (l : List Packet) :
    retryCalls (p :: l) =
      (if retryEligible p then [p.incrementRetry] else []) ++ retryCalls l := by
  unfold retryCalls
  simp only [List.filter_cons]
  split <;> simp [Packet.incrementRetry]

/-- What the retry loop computes from any intermediate state. -/
theorem retryLoop_spec (send : Transmit) (q : List Packet) (m : NetworkMonitor)
    (temp : List Packet) :
    retryLoop send q m temp =
      ({ m with backupQueue := [], sendLog := m.sendLog ++ retryCalls q },
       temp ++ failedFrom send m.sendLog.length (retryCalls q)) := by
  induction q generalizing m temp with
  | nil => simp [retryLoop, retryCalls, failedFrom]
  | cons p q ih =>
    rw [retryLoop, retryCalls_cons]
    by_cases hc : p.retryCount < 2
    · by_cases hs : p.size ≤ 1500
      · have he : retryEligible p = true := by simp [retryEligible, hc, hs]
        have hs' : ¬ (p.incrementRetry.size > 1500) := by
          simp [Packet.incrementRetry]; exact hs
        simp only [Packet.canRetry, hc, decide_True, Bool.not_true, Bool.false_eq_true,
          if_false, hs', he, if_true]
        by_cases hf : sendFailed (send m.sendLog.length p.incrementRetry) p.incrementRetry = true
        · simp [hf, ih, failedFrom_cons, Queue.enqueue]
        · simp [hf, ih, failedFrom_cons]
      · have he : retryEligible p = false := by simp [retryEligible, hs]
        have hs' : p.incrementRetry.size > 1500 := by
          simp [Packet.incrementRetry]; omega
        simp [Packet.canRetry, hc, hs', he, ih]
    · have he : retryEligible p = false := by simp [retryEligible, hc]
      simp [Packet.canRetry, hc, he, ih]

/-- What `retryBackupPackets` computes. -/
theorem retryBackupPackets_spec (send : Transmit) (m : NetworkMonitor) :
    retryBackupPackets send m =
      { m with backupQueue := specRetryBackup send m.sendLog.length m.backupQueue,
               sendLog := m.sendLog ++ retryCalls m.backupQueue } := by
  unfold retryBackupPackets
  by_cases he : m.backupQueue = []
  · cases m
    simp only at he
    subst he
    simp [Queue.isEmpty, specRetryBackup, retryCalls, failedFrom]
  · have : Queue.isEmpty m.backupQueue = false := by
      cases hq : m.backupQueue with
      | nil => exact absurd hq he
      | cons a l => rfl
    simp [this, retryLoop_spec, specRetryBackup]

/-- What the replay loop computes from any intermediate state. -/
theorem replayLoop_spec (send : Transmit) (q : List Packet) (m : NetworkMonitor)
    (c : ReplayCounts) :
    replayLoop send q m c =
      ({ m with filteredQueue := [],
                backupQueue := m.backupQueue ++ failedFrom send m.sendLog.length q,
                sendLog := m.sendLog ++ q },
       { successCount := c.successCount + (sentExactlyCount send m.sendLog.length q : Int),
         failureCount := c.failureCount + ((failedFrom send m.sendLog.length q).length : Int) }) := by
  induction q generalizing m c with
  | nil => simp [replayLoop, failedFrom, sentExactlyCount]
  | cons p q ih =>
    rw [replayLoop, failedFrom_cons, sentExactlyCount_cons]
    by_cases hf : sendFailed (send m.sendLog.length p) p = true
    · simp [hf, ih, Queue.enqueue]
      omega
    · simp [hf, ih]
      omega

/-- State of `replayPackets` in terms of the drain and the automatic retry. -/
theorem replayPackets_eq (send : Transmit) (m : NetworkMonitor) :
    (replayPackets send m).1 =
      if (replayDrain send m).2.failureCount > 0 then
        retryBackupPackets send (replayDrain send m).1
      else (replayDrain send m).1 := by
  unfold replayPackets
  cases hq : m.filteredQueue with
  | nil =>
    cases m
    simp only at hq
    subst hq
    simp [Queue.isEmpty, replayDrain, replayLoop]
  | cons a l =>
    simp only [Queue.isEmpty, List.isEmpty_cons, Bool.false_eq_true, if_false]
    split <;> rfl

/-- The summary of `replayPackets` on a non-empty filtered queue is the pair of
counters of the drain. -/
theorem replayPackets_summary (send : Transmit) (m : NetworkMonitor)
    (hne : m.filteredQueue ≠ []) :
    (replayPackets send m).2 = some (replayDrain send m).2 := by
  unfold replayPackets
  cases hq : m.filteredQueue with
  | nil => exact absurd hq hne
  | cons a l =>
    simp only [Queue.isEmpty, List.isEmpty_cons, Bool.false_eq_true, if_false]
    split <;> rfl

/-- C3: `replayPackets` ends with the filtered queue empty.  Nothing is reported
only when the filtered queue was already empty; otherwise the reported success
and failure counts add up to the size of the filtered queue before the call,
and the success count is the number of frames for which `send` returned exactly
the frame's size. -/
theorem replayPackets_drains (send : Transmit) (m : NetworkMonitor) :
    (replayPackets send m).1.filteredQueue = [] ∧
    (match (replayPackets send m).2 with
     | none => m.filteredQueue = []
     | some c =>
        c.successCount + c.failureCount = (m.filteredQueue.length : Int) ∧
        c.successCount = (sentExactlyCount send m.sendLog.length m.filteredQueue : Int)) := by
  constructor
  · rw [replayPackets_eq]
    split
    · rw [retryBackupPackets_spec]
      simp [replayDrain, replayLoop_spec]
    · simp [replayDrain, replayLoop_spec]
  · cases hq : m.filteredQueue with
    | nil => simp [replayPackets, hq, Queue.isEmpty]
    | cons a l =>
      have hne : m.filteredQueue ≠ [] := by simp [hq]
      rw [replayPackets_summary send m hne]
      have hsum := failed_add_sentExactly send m.sendLog.length m.filteredQueue
      rw [hq] at hsum
      simp only [replayDrain, replayLoop_spec, hq]
      constructor
      · omega
      · omega

theorem mem_failedFrom {send : Transmit} {k : Nat} {l : List Packet} {q : Packet}
    (h : q ∈ failedFrom send k l) : q ∈ l := by
  induction l generalizing k with
  | nil => simp [failedFrom] at h
  | cons p l ih =>
    rw [failedFrom_cons] at h
    rcases List.mem_append.mp h with h1 | h2
    · split at h1
      · simp at h1; simp [h1]
      · simp at h1
    · exact List.mem_cons_of_mem _ (ih h2)

theorem mem_retryCalls {backup : List Packet} {q : Packet} (h : q ∈ retryCalls backup) :
    ∃ p ∈ backup, p.retryCount < 2 ∧ p.size ≤ 1500 ∧ q = p.incrementRetry := by
  unfold retryCalls at h
  obtain ⟨p, hp, rfl⟩ := List.mem_map.mp h
  obtain ⟨hmem, hel⟩ := List.mem_filter.mp hp
  simp only [retryEligible, Bool.and_eq_true, decide_eq_true_eq] at hel
  exact ⟨p, hmem, hel.1, hel.2, rfl⟩

theorem callsBetween_retry (send : Transmit) (m : NetworkMonitor) :
    callsBetween m (retryBackupPackets send m) = retryCalls m.backupQueue := by
  rw [retryBackupPackets_spec]
  simp [callsBetween]

theorem failedFrom_all (send : Transmit) (k : Nat) (l : List Packet)
    (h : ∀ kp ∈ l.enumFrom k, sendFailed (send kp.1 kp.2) kp.2 = true) :
    failedFrom send k l = l := by
  unfold failedFrom
  rw [List.filter_eq_self.mpr h, List.enumFrom_map_snd]

/-- C4 (counterexample): with `send` failing on every call, replaying the two
filtered frames of `replayReady` reports 2 failures, yet the backup queue the
call leaves holds one frame, the 100-byte one with `retryCount` 1, and not the
two failed frames with `retryCount` 0. -/
theorem replayPackets_backup_counterexample :
    (replayPackets alwaysFail replayReady).2 =
        some { successCount := 0, failureCount := 2 } ∧
    replayReady.backupQueue ++
        failedFrom alwaysFail replayReady.sendLog.length replayReady.filteredQueue =
      [frameAB 1 100, frameAB 2 1600] ∧
    (replayPackets alwaysFail replayReady).1.backupQueue =
      [{ frameAB 1 100 with retryCount := 1 }] ∧
    (replayPackets alwaysFail replayReady).1.backupQueue ≠
      replayReady.backupQueue ++
        failedFrom alwaysFail replayReady.sendLog.length replayReady.filteredQueue ∧
    (replayPackets alwaysFail replayReady).1.backupQueue.length ≠
      replayReady.backupQueue.length + 2 := by
  decide

/-- C5: the frames a retry pass hands to `send` are exactly the frames of the
backup queue that had `retryCount` below 2 (and size at most 1500) when
dequeued, each handed over with the count raised by 1, so no frame with
`retryCount` 2 or more is transmitted; every frame kept in the backup queue
comes from a frame that had `retryCount` below 2, so a frame with `retryCount` 2
or more is not re-enqueued; and every frame in the backup queue after the pass
has `retryCount` at most 2, whatever the counts were before. -/
theorem retryBackupPackets_budget (send : Transmit) (m : NetworkMonitor) :
    callsBetween m (retryBackupPackets send m) = retryCalls m.backupQueue ∧
    (∀ q ∈ callsBetween m (retryBackupPackets send m),
        ∃ p ∈ m.backupQueue, p.retryCount < 2 ∧ q = p.incrementRetry) ∧
    (∀ q ∈ (retryBackupPackets send m).backupQueue,
        ∃ p ∈ m.backupQueue, p.retryCount < 2 ∧ q = p.incrementRetry) ∧
    (∀ q ∈ (retryBackupPackets send m).backupQueue, q.retryCount ≤ 2) := by
  have key : ∀ q ∈ (retryBackupPackets send m).backupQueue,
      ∃ p ∈ m.backupQueue, p.retryCount < 2 ∧ q = p.incrementRetry := by
    intro q hq
    rw [retryBackupPackets_spec] at hq
    obtain ⟨p, hp, hc, _, rfl⟩ := mem_retryCalls (mem_failedFrom hq)
    exact ⟨p, hp, hc, rfl⟩
  refine ⟨callsBetween_retry send m, ?_, key, ?_⟩
  · intro q hq
    rw [callsBetween_retry] at hq
    obtain ⟨p, hp, hc, _, rfl⟩ := mem_retryCalls hq
    exact ⟨p, hp, hc, rfl⟩
  · intro q hq
    obtain ⟨p, _, hc, rfl⟩ := key q hq
    simp only [Packet.incrementRetry]
    omega

/-- C6: one retry pass replaces the backup queue with exactly, in order, those of
its frames that had `retryCount` below 2, have size at most 1500 and whose
transmission in this pass failed, each with `retryCount` raised by 1. -/
theorem retryBackupPackets_backup (send : Transmit) (m : NetworkMonitor) :
    (retryBackupPackets send m).backupQueue =
      specRetryBackup send m.sendLog.length m.backupQueue := by
  rw [retryBackupPackets_spec]

/-- Witness for C6: two frames of at most 1500 bytes with `retryCount` 0, and a
`send` that always fails: both stay in the backup queue with `retryCount` 1. -/
theorem retryBackupPackets_backup_witness :
    (retryBackupPackets alwaysFail backupFresh).backupQueue =
      [{ frameAB 1 100 with retryCount := 1 }, { frameAB 2 200 with retryCount := 1 }] :=
  (retryBackupPackets_backup alwaysFail backupFresh).trans (by decide)

/-- C7: after one retry pass no frame of more than 1500 bytes is in the backup
queue, and no frame of more than 1500 bytes was handed to `send` during the
pass. -/
theorem retryBackupPackets_drops_oversized (send : Transmit) (m : NetworkMonitor) :
    (∀ q ∈ (retryBackupPackets send m).backupQueue, q.size ≤ 1500) ∧
    (∀ q ∈ callsBetween m (retryBackupPackets send m), q.size ≤ 1500) := by
  constructor
  · intro q hq
    rw [retryBackupPackets_spec] at hq
    obtain ⟨p, _, _, hs, rfl⟩ := mem_retryCalls (mem_failedFrom hq)
    exact hs
  · intro q hq
    rw [callsBetween_retry] at hq
    obtain ⟨p, _, _, hs, rfl⟩ := mem_retryCalls hq
    exact hs

/-- C8 (the code at the failing input): two `capturePackets` calls on one
session, each receiving one frame, leave two frames with the same id 1 in the
captured queue. -/
theorem capturePackets_restarts_ids :
    (capturePackets plainAnalyzer oneRead
        (capturePackets plainAnalyzer oneRead NetworkMonitor.init).1).1.packetQueue.map
      (fun p => p.id) = [1, 1] := by
  decide

/-! Display operations -/

theorem detailsLoop_eq_none (packetId : Int) (q : List Packet) :
    detailsLoop packetId q = none ↔ ∀ p ∈ q, p.id ≠ packetId := by
  induction q with
  | nil => simp [detailsLoop]
  | cons a q ih =>
    unfold detailsLoop
    by_cases h : a.id = packetId
    · simp [h]
    · simp [h, ih]

theorem detailsLoop_eq_some (packetId : Int) (q : List Packet) (p : Packet)
    (h : detailsLoop packetId q = some p) :
    ∃ pre post, q = pre ++ p :: post ∧ p.id = packetId ∧ ∀ x ∈ pre, x.id ≠ packetId := by
  induction q with
  | nil => simp [detailsLoop] at h
  | cons a q ih =>
    unfold detailsLoop at h
    by_cases ha : a.id = packetId
    · simp only [ha, if_true, Option.some.injEq] at h
      subst h
      exact ⟨[], q, rfl, ha, by simp⟩
    · simp only [ha, if_false] at h
      obtain ⟨pre, post, hq, hp, hpre⟩ := ih h
      refine ⟨a :: pre, post, by simp [hq], hp, ?_⟩
      intro x hx
      rcases List.mem_cons.mp hx with rfl | hx
      · exact ha
      · exact hpre x hx

/-- C13: `displayPacketDetails(id)` reports not-found exactly when no frame of the
captured queue has that id, whatever the filtered and backup queues hold; when
it renders a frame, that frame is the first one of the captured queue with that
id; and the session, with its three queues, is left as it was. -/
theorem displayPacketDetails_lookup (packetId : Int) (m : NetworkMonitor) :
    ((displayPacketDetails packetId m).2 = none ↔ ∀ p ∈ m.packetQueue, p.id ≠ packetId) ∧
    (∀ p, (displayPacketDetails packetId m).2 = some p →
      ∃ pre post, m.packetQueue = pre ++ p :: post ∧ p.id = packetId ∧
        ∀ x ∈ pre, x.id ≠ packetId) ∧
    (displayPacketDetails packetId m).1 = m :=
  ⟨detailsLoop_eq_none packetId m.packetQueue,
   fun p h => detailsLoop_eq_some packetId m.packetQueue p h, rfl⟩

theorem displayLoop_spec (q : List Packet) (k : Nat) (listed : List Packet) (hk : k ≤ 50) :
    displayLoop q (k : Int) listed =
      (q.drop (50 - k), ((k + min (50 - k) q.length : Nat) : Int), listed ++ q.take (50 - k)) := by
  induction q generalizing k listed with
  | nil => simp [displayLoop]
  | cons a q ih =>
    unfold displayLoop
    by_cases h : k < 50
    · have h' : (k : Int) < 50 := by omega
      have e : ((k : Int) + 1) = ((k + 1 : Nat) : Int) := by push_cast; ring
      rw [if_pos h', e, ih (k + 1) (listed ++ [a]) (by omega)]
      have e2 : 50 - k = (50 - (k + 1)) + 1 := by omega
      rw [e2, List.drop_succ_cons, List.take_succ_cons]
      simp only [List.length_cons, List.append_assoc, List.singleton_append, Prod.mk.injEq,
        true_and, and_true]
      congr 1
      omega
    · have h' : ¬ ((k : Int) < 50) := by omega
      have e0 : 50 - k = 0 := by omega
      rw [if_neg h', e0]
      simp

/-- C15: `displayPackets` lists the first `min n 50` frames of the captured queue
of `n` frames, in queue order; it prints a remaining count exactly when
`n > 50`, and that count is `n - 50`; the session is left as it was. -/
theorem displayPackets_listing (m : NetworkMonitor) :
    (displayPackets m).2.listed = m.packetQueue.take 50 ∧
    (displayPackets m).2.listed.length = min m.packetQueue.length 50 ∧
    (displayPackets m).2.remaining =
      (if m.packetQueue.length > 50 then some ((m.packetQueue.length : Int) - 50) else none) ∧
    (displayPackets m).1 = m := by
  have hl : (displayPackets m).2.listed = m.packetQueue.take 50 := by
    unfold displayPackets
    cases hq : m.packetQueue with
    | nil => simp [Queue.isEmpty]
    | cons a q =>
      have := displayLoop_spec (a :: q) 0 [] (by omega)
      simp only [Nat.cast_zero] at this
      simp only [Queue.isEmpty, List.isEmpty_cons, Bool.false_eq_true, if_false, this]
      split <;> simp
  refine ⟨hl, by rw [hl, List.length_take, Nat.min_comm], ?_, ?_⟩
  · unfold displayPackets
    cases hq : m.packetQueue with
    | nil => simp [Queue.isEmpty]
    | cons a q =>
      have := displayLoop_spec (a :: q) 0 [] (by omega)
      simp only [Nat.cast_zero] at this
      simp only [Queue.isEmpty, List.isEmpty_cons, Bool.false_eq_true, if_false, this,
        Queue.size]
      by_cases hn : (a :: q).length > 50
      · have hd : (List.drop (50 - 0) (a :: q)).isEmpty = false := by
          rw [List.isEmpty_eq_false]
          intro h
          have := congrArg List.length h
          simp at this
          simp at hn
          omega
        simp only [hd, Bool.not_false, if_true, hn]
      · have hd : (List.drop (50 - 0) (a :: q)).isEmpty = true := by
          rw [List.isEmpty_iff]
          apply List.drop_eq_nil_of_le
          simp at hn ⊢
          omega
        simp only [hd, Bool.not_true, Bool.false_eq_true, if_false, hn]
  · unfold displayPackets
    split
    · rfl
    · simp only []
      split <;> rfl

/-! Capture -/

theorem positiveReads_cons (r : Read) (rs : List Read) :
    positiveReads (r :: rs) = if 0 < r.size then r :: positiveReads rs else positiveReads rs := by
  unfold positiveReads
  rw [List.filter_cons]
  by_cases h : 0 < r.size <;> simp [h]

/-- What the capture loop computes when the counter holds `k`. -/
theorem captureLoop_spec (analyzer : Analyzer) (reads : List Read) (m : NetworkMonitor)
    (k : Nat) :
    captureLoop analyzer reads m (k : Int) =
      ({ m with packetQueue := m.packetQueue ++ framesFrom analyzer k reads },
       ((k + (positiveReads reads).length : Nat) : Int)) := by
  induction reads generalizing m k with
  | nil => simp [captureLoop, framesFrom, positiveReads]
  | cons r rs ih =>
    unfold captureLoop
    by_cases h : r.size > 0
    · have h' : 0 < r.size := h
      have e : ((k : Int) + 1) = ((k + 1 : Nat) : Int) := by push_cast; ring
      rw [if_pos h, e, ih]
      simp only [framesFrom, positiveReads_cons, h', if_true, List.enumFrom_cons, List.map_cons,
        Queue.enqueue, List.append_assoc, List.singleton_append, List.length_cons, frameOfRead]
      congr 2
      omega
    · have h' : ¬ (0 < r.size) := h
      rw [if_neg h, ih]
      simp only [framesFrom, positiveReads_cons, h', if_false]

theorem capturePackets_eq (analyzer : Analyzer) (reads : List Read) (m : NetworkMonitor) :
    (capturePackets analyzer reads m).1 =
      { m with packetQueue := m.packetQueue ++ capturedFrames analyzer reads } := by
  have h := captureLoop_spec analyzer reads m 1
  simp only [Nat.cast_one] at h
  simp only [capturePackets, h, capturedFrames]

theorem framesFrom_ids (analyzer : Analyzer) (k : Nat) (reads : List Read) :
    (framesFrom analyzer k reads).map (fun p => p.id) =
      (List.range (positiveReads reads).length).map (fun i => ((i + k : Nat) : Int)) := by
  unfold framesFrom
  generalize positiveReads reads = l
  induction l generalizing k with
  | nil => simp
  | cons a l ih =>
    rw [List.enumFrom_cons, List.map_cons, List.map_cons, ih (k + 1), List.length_cons,
      List.range_succ_eq_map, List.map_cons, List.map_map]
    simp only [frameOfRead, dissect, Packet.create, Nat.zero_add, List.cons.injEq, true_and]
    apply List.map_congr_left
    intro i _
    simp only [Function.comp]
    congr 1
    omega

theorem framesFrom_sizes (analyzer : Analyzer) (k : Nat) (reads : List Read) :
    (framesFrom analyzer k reads).map (fun p => (p.size : Int)) =
      (positiveReads reads).map (fun r => r.size) := by
  unfold framesFrom
  have hpos : ∀ r ∈ positiveReads reads, 0 < r.size := by
    intro r hr
    simpa using (List.mem_filter.mp hr).2
  generalize positiveReads reads = l at hpos
  induction l generalizing k with
  | nil => simp
  | cons a l ih =>
    rw [List.enumFrom_cons, List.map_cons, List.map_cons, List.map_cons,
      ih (k + 1) (fun r hr => hpos r (List.mem_cons_of_mem _ hr))]
    have ha := hpos a (List.mem_cons_self _ _)
    simp only [frameOfRead, dissect, Packet.create, List.cons.injEq, and_true]
    omega

/-- C14: one `capturePackets` call leaves the captured queue equal to the previous
captured queue followed by one frame per read of positive length, in read
order, each built from its read; the new frames carry the consecutive ids
1, 2, ..., so reads of length zero or below add no frame and use no id; the
reported total is the number of such reads; the filtered and backup queues are
unchanged. -/
theorem capturePackets_appends (analyzer : Analyzer) (reads : List Read) (m : NetworkMonitor) :
    (capturePackets analyzer reads m).1.packetQueue =
        m.packetQueue ++ capturedFrames analyzer reads ∧
    capturedFrames analyzer reads =
        ((positiveReads reads).enumFrom 1).map (frameOfRead analyzer) ∧
    (capturedFrames analyzer reads).map (fun p => p.id) =
        (List.range (positiveReads reads).length).map (fun i => ((i + 1 : Nat) : Int)) ∧
    (capturedFrames analyzer reads).map (fun p => (p.size : Int)) =
        (positiveReads reads).map (fun r => r.size) ∧
    (capturePackets analyzer reads m).2 = ((positiveReads reads).length : Int) ∧
    (capturePackets analyzer reads m).1.filteredQueue = m.filteredQueue ∧
    (capturePackets analyzer reads m).1.backupQueue = m.backupQueue := by
  refine ⟨?_, rfl, framesFrom_ids analyzer 1 reads, framesFrom_sizes analyzer 1 reads,
    ?_, ?_, ?_⟩
  · rw [capturePackets_eq]
  · have h := captureLoop_spec analyzer reads m 1
    simp only [Nat.cast_one] at h
    simp only [capturePackets, h]
    push_cast
    ring
  · rw [capturePackets_eq]
  · rw [capturePackets_eq]

/-! Replay and retry: what they leave alone -/

theorem filterPackets_congr (m m' : NetworkMonitor) (src dst : String)
    (hq : m'.packetQueue = m.packetQueue)
    (ht : m'.oversizedThreshold = m.oversizedThreshold) :
    (filterPackets src dst m').1.filteredQueue = (filterPackets src dst m).1.filteredQueue ∧
    (filterPackets src dst m').2 = (filterPackets src dst m).2 := by
  constructor <;> simp only [filterPackets, Queue.clear, hq, ht]

theorem replayDrain_state (send : Transmit) (m : NetworkMonitor) :
    (replayDrain send m).1 =
      { m with filteredQueue := [],
               backupQueue := m.backupQueue ++ failedFrom send m.sendLog.length m.filteredQueue,
               sendLog := m.sendLog ++ m.filteredQueue } := by
  simp [replayDrain, replayLoop_spec]

theorem replayPackets_captured (send : Transmit) (m : NetworkMonitor) :
    (replayPackets send m).1.packetQueue = m.packetQueue ∧
    (replayPackets send m).1.oversizedThreshold = m.oversizedThreshold := by
  rw [replayPackets_eq]
  split
  · rw [retryBackupPackets_spec, replayDrain_state]
    exact ⟨rfl, rfl⟩
  · rw [replayDrain_state]
    exact ⟨rfl, rfl⟩

theorem failedFrom_none (send : Transmit) (k : Nat) (l : List Packet)
    (h : ∀ kp ∈ l.enumFrom k, sendFailed (send kp.1 kp.2) kp.2 = false) :
    failedFrom send k l = [] := by
  unfold failedFrom
  rw [List.map_eq_nil_iff, List.filter_eq_nil_iff]
  intro kp hkp
  simp [h kp hkp]

/-- C17: `replayPackets` and `retryBackupPackets` leave the captured queue as it
was, `retryBackupPackets` also leaves the filtered queue as it was, and a
`filterPackets` call made after either of them gives the filtered queue and the
counts it would have given before. -/
theorem replay_retry_keep_captured (send : Transmit) (m : NetworkMonitor) (src dst : String) :
    (replayPackets send m).1.packetQueue = m.packetQueue ∧
    (retryBackupPackets send m).packetQueue = m.packetQueue ∧
    (retryBackupPackets send m).filteredQueue = m.filteredQueue ∧
    (filterPackets src dst (replayPackets send m).1).1.filteredQueue =
      (filterPackets src dst m).1.filteredQueue ∧
    (filterPackets src dst (replayPackets send m).1).2 = (filterPackets src dst m).2 ∧
    (filterPackets src dst (retryBackupPackets send m)).1.filteredQueue =
      (filterPackets src dst m).1.filteredQueue ∧
    (filterPackets src dst (retryBackupPackets send m)).2 = (filterPackets src dst m).2 := by
  have hr := replayPackets_captured send m
  have hb : (retryBackupPackets send m).packetQueue = m.packetQueue ∧
      (retryBackupPackets send m).oversizedThreshold = m.oversizedThreshold := by
    rw [retryBackupPackets_spec]
    exact ⟨rfl, rfl⟩
  have h1 := filterPackets_congr m (replayPackets send m).1 src dst hr.1 hr.2
  have h2 := filterPackets_congr m (retryBackupPackets send m) src dst hb.1 hb.2
  refine ⟨hr.1, hb.1, ?_, h1.1, h1.2, h2.1, h2.2⟩
  rw [retryBackupPackets_spec]

/-- C16: when the filtered queue is empty, or every transmission of the pass
succeeds, `replayPackets` ends in the state its drain loop reached, without a
retry pass: the backup queue is as it was, and the frames handed to `send`
during the call are the filtered frames and nothing else. -/
theorem replayPackets_no_retry (send : Transmit) (m : NetworkMonitor)
    (h : m.filteredQueue = [] ∨
      ∀ kp ∈ m.filteredQueue.enumFrom m.sendLog.length,
        sendFailed (send kp.1 kp.2) kp.2 = false) :
    (replayPackets send m).1.backupQueue = m.backupQueue ∧
    (replayPackets send m).1 = (replayDrain send m).1 ∧
    callsBetween m (replayPackets send m).1 = m.filteredQueue := by
  have hnone : failedFrom send m.sendLog.length m.filteredQueue = [] := by
    rcases h with h | h
    · rw [h]; rfl
    · exact failedFrom_none send _ _ h
  have hcount : ¬ ((replayDrain send m).2.failureCount > 0) := by
    simp [replayDrain, replayLoop_spec, hnone]
  have hstate : (replayPackets send m).1 = (replayDrain send m).1 := by
    rw [replayPackets_eq, if_neg hcount]
  refine ⟨?_, hstate, ?_⟩
  · rw [hstate, replayDrain_state, hnone]
    simp
  · rw [hstate, replayDrain_state]
    simp [callsBetween]

/-- Witness for C16: with a frame waiting in the backup queue after one retry and
a `send` that transmits every frame in full, replaying one filtered frame leaves
the backup queue as it was and hands only the filtered frame to `send`. -/
theorem replayPackets_no_retry_witness :
    (backupWaiting.filteredQueue = [] ∨
      ∀ kp ∈ backupWaiting.filteredQueue.enumFrom backupWaiting.sendLog.length,
        sendFailed (alwaysSend kp.1 kp.2) kp.2 = false) ∧
    ((replayPackets alwaysSend backupWaiting).1.backupQueue =
        [{ frameAB 1 100 with retryCount := 1 }] ∧
      (replayPackets alwaysSend backupWaiting).1 = (replayDrain alwaysSend backupWaiting).1 ∧
      callsBetween backupWaiting (replayPackets alwaysSend backupWaiting).1 = [frameAB 3 300]) :=
  ⟨Or.inr (by decide),
   replayPackets_no_retry alwaysSend backupWaiting (Or.inr (by decide))⟩

/-! Retry: the budget over consecutive passes -/

theorem failedFrom_sublist (send : Transmit) (k : Nat) (l : List Packet) :
    (failedFrom send k l).Sublist l := by
  unfold failedFrom
  have h := (List.filter_sublist (l.enumFrom k)
    (p := fun kp => sendFailed (send kp.1 kp.2) kp.2)).map Prod.snd
  rwa [List.enumFrom_map_snd] at h

theorem retryCalls_sublist (backup : List Packet) :
    (retryCalls backup).Sublist (backup.map Packet.incrementRetry) := by
  unfold retryCalls
  exact (List.filter_sublist backup).map _

theorem retryCalls_eq_nil (backup : List Packet) (h : ∀ p ∈ backup, 2 ≤ p.retryCount) :
    retryCalls backup = [] := by
  unfold retryCalls
  rw [List.map_eq_nil_iff, List.filter_eq_nil_iff]
  intro p hp
  have := h p hp
  simp [retryEligible]
  omega

/-- Every frame kept by a retry pass has had at least one more retry than the
least count in the queue before. -/
theorem retryBackupPackets_raises (send : Transmit) (m : NetworkMonitor) (n : Nat)
    (h : ∀ p ∈ m.backupQueue, n ≤ p.retryCount) :
    ∀ q ∈ (retryBackupPackets send m).backupQueue, n + 1 ≤ q.retryCount ∧ q.retryCount ≤ 2 := by
  intro q hq
  rw [retryBackupPackets_spec] at hq
  obtain ⟨p, hp, hc, _, rfl⟩ := mem_retryCalls (mem_failedFrom hq)
  have := h p hp
  simp only [Packet.incrementRetry]
  omega

theorem retryBackupPackets_exhausted (send : Transmit) (m : NetworkMonitor)
    (h : ∀ p ∈ m.backupQueue, 2 ≤ p.retryCount) :
    (retryBackupPackets send m).backupQueue = [] ∧
    callsBetween m (retryBackupPackets send m) = [] := by
  rw [callsBetween_retry, retryBackupPackets_spec]
  simp [specRetryBackup, retryCalls_eq_nil m.backupQueue h, failedFrom]

/-- C11: after three consecutive retry passes the backup queue is empty.  After
two passes every frame still in the backup queue has `retryCount` 2, and the
third pass hands nothing to `send`.  The frames handed to `send` over the three
passes split into those of the first pass, at most one per frame of the initial
backup queue, and those of the second pass, at most one per frame sent in the
first pass: no frame is transmitted more than twice.  A pass over a queue whose
frames all have `retryCount` 2 or more discards them without transmitting. -/
theorem retryThrice_empties (send : Transmit) (m : NetworkMonitor) :
    (retryThrice send m).backupQueue = [] ∧
    (∀ q ∈ (retryBackupPackets send (retryBackupPackets send m)).backupQueue,
        q.retryCount = 2) ∧
    callsBetween (retryBackupPackets send (retryBackupPackets send m)) (retryThrice send m)
        = [] ∧
    (∃ c1 c2, callsBetween m (retryThrice send m) = c1 ++ c2 ∧
        c1.Sublist (m.backupQueue.map Packet.incrementRetry) ∧
        c2.Sublist (c1.map Packet.incrementRetry)) ∧
    (callsBetween m (retryThrice send m)).length ≤ 2 * m.backupQueue.length ∧
    (∀ m0 : NetworkMonitor, (∀ p ∈ m0.backupQueue, 2 ≤ p.retryCount) →
        (retryBackupPackets send m0).backupQueue = [] ∧
        callsBetween m0 (retryBackupPackets send m0) = []) := by
  have h1 := retryBackupPackets_raises send m 0 (fun _ _ => Nat.zero_le _)
  have h2 := retryBackupPackets_raises send (retryBackupPackets send m) 1
    (fun p hp => (h1 p hp).1)
  have h2' : ∀ p ∈ (retryBackupPackets send (retryBackupPackets send m)).backupQueue,
      2 ≤ p.retryCount := fun p hp => (h2 p hp).1
  have h3 := retryBackupPackets_exhausted send _ h2'
  have hsplit : ∃ c1 c2, callsBetween m (retryThrice send m) = c1 ++ c2 ∧
      c1.Sublist (m.backupQueue.map Packet.incrementRetry) ∧
      c2.Sublist (c1.map Packet.incrementRetry) := by
    refine ⟨retryCalls m.backupQueue,
      retryCalls (retryBackupPackets send m).backupQueue, ?_, retryCalls_sublist _, ?_⟩
    · have e3 := h3.2
      rw [callsBetween_retry] at e3
      unfold retryThrice callsBetween
      rw [retryBackupPackets_spec send (retryBackupPackets send (retryBackupPackets send m)),
        e3, retryBackupPackets_spec send (retryBackupPackets send m)]
      simp only [List.append_nil]
      rw [retryBackupPackets_spec send m]
      simp [List.append_assoc]
    · refine (retryCalls_sublist _).trans (List.Sublist.map _ ?_)
      rw [retryBackupPackets_spec]
      exact failedFrom_sublist _ _ _
  refine ⟨h3.1, fun q hq => ?_, h3.2, hsplit, ?_,
    fun m0 h0 => retryBackupPackets_exhausted send m0 h0⟩
  · have := h2 q hq
    omega
  · obtain ⟨c1, c2, hc, s1, s2⟩ := hsplit
    have l1 := s1.length_le
    have l2 := s2.length_le
    rw [hc]
    simp only [List.length_append, List.length_map] at l1 l2 ⊢
    omega

/-! Reachable sessions: the queues hold copies -/

theorem specFilteredQueue_sublist (src dst : String) (T : Int) (q : List Packet) :
    (specFilteredQueue src dst T q).Sublist q := by
  unfold specFilteredQueue
  have h := (List.filter_sublist q.enum
    (p := fun ip => specAdmitted src dst T q ip.1 ip.2)).map Prod.snd
  rwa [List.enum_map_snd] at h

theorem copyOf_self (p : Packet) : copyOf p p := by
  cases p
  rfl

theorem copyOf_incrementRetry {p c : Packet} (h : copyOf p c) :
    copyOf p.incrementRetry c := by
  unfold copyOf at h ⊢
  rw [h]
  rfl

theorem copies_capture (analyzer : Analyzer) (reads : List Read) (m : NetworkMonitor)
    (h : QueuesCopyCaptured m) : QueuesCopyCaptured (capturePackets analyzer reads m).1 := by
  rw [capturePackets_eq]
  refine ⟨fun p hp => ?_, fun p hp => ?_⟩
  · exact List.mem_append_left _ (h.1 p hp)
  · obtain ⟨c, hc, hpc⟩ := h.2 p hp
    exact ⟨c, List.mem_append_left _ hc, hpc⟩

theorem copies_filter (src dst : String) (m : NetworkMonitor)
    (h : QueuesCopyCaptured m) : QueuesCopyCaptured (filterPackets src dst m).1 := by
  refine ⟨fun p hp => ?_, h.2⟩
  rw [filterPackets_filteredQueue] at hp
  exact (specFilteredQueue_sublist src dst _ _).subset hp

theorem copies_retry (send : Transmit) (m : NetworkMonitor)
    (h : QueuesCopyCaptured m) : QueuesCopyCaptured (retryBackupPackets send m) := by
  rw [retryBackupPackets_spec]
  refine ⟨h.1, fun q hq => ?_⟩
  obtain ⟨p, hp, _, _, rfl⟩ := mem_retryCalls (mem_failedFrom hq)
  obtain ⟨c, hc, hpc⟩ := h.2 p hp
  exact ⟨c, hc, copyOf_incrementRetry hpc⟩

theorem copies_drain (send : Transmit) (m : NetworkMonitor)
    (h : QueuesCopyCaptured m) : QueuesCopyCaptured (replayDrain send m).1 := by
  rw [replayDrain_state]
  refine ⟨fun p hp => by simp at hp, fun p hp => ?_⟩
  rcases List.mem_append.mp hp with hb | hf
  · exact h.2 p hb
  · exact ⟨p, h.1 p (mem_failedFrom hf), copyOf_self p⟩

theorem copies_replay (send : Transmit) (m : NetworkMonitor)
    (h : QueuesCopyCaptured m) : QueuesCopyCaptured (replayPackets send m).1 := by
  rw [replayPackets_eq]
  split
  · exact copies_retry send _ (copies_drain send m h)
  · exact copies_drain send m h

theorem copies_apply (op : Op) (m : NetworkMonitor) (h : QueuesCopyCaptured m) :
    QueuesCopyCaptured (Op.apply m op) := by
  cases op with
  | capture analyzer reads => exact copies_capture analyzer reads m h
  | filter src dst => exact copies_filter src dst m h
  | replay send => exact copies_replay send m h
  | retry send => exact copies_retry send m h

theorem copies_runOps (ops : List Op) (m : NetworkMonitor) (h : QueuesCopyCaptured m) :
    QueuesCopyCaptured (runOps ops m) := by
  induction ops generalizing m with
  | nil => exact h
  | cons op ops ih => exact ih (Op.apply m op) (copies_apply op m h)

theorem runOps_snoc (ops : List Op) (op : Op) (m : NetworkMonitor) :
    runOps (ops ++ [op]) m = Op.apply (runOps ops m) op := by
  simp [runOps, List.foldl_append]

/-- C12 (counterexample): after capturing one frame and filtering its pair, the
frame with id 1 is in the captured queue and in the filtered queue; after a
replay in which every transmission fails and a second filter, a frame with id 1
is in the captured, the filtered and the backup queue at once. -/
theorem queues_disjoint_counterexample :
    ((1 : Int) ∈ (runOps captureThenFilter NetworkMonitor.init).packetQueue.map (fun p => p.id) ∧
      (1 : Int) ∈ (runOps captureThenFilter NetworkMonitor.init).filteredQueue.map
        (fun p => p.id)) ∧
    ((1 : Int) ∈ (runOps captureReplayFilter NetworkMonitor.init).packetQueue.map
        (fun p => p.id) ∧
      (1 : Int) ∈ (runOps captureReplayFilter NetworkMonitor.init).filteredQueue.map
        (fun p => p.id) ∧
      (1 : Int) ∈ (runOps captureReplayFilter NetworkMonitor.init).backupQueue.map
        (fun p => p.id)) := by
  decide

/-- C12 (amended): in every state reached from a fresh session through capture,
filter, replay and retry commands, every frame of the filtered queue is also in
the captured queue and every frame of the backup queue is a frame of the
captured queue up to its retry counter; no command removes a frame from the
captured queue; `replayPackets` is the one transfer that empties its source: it
leaves the filtered queue empty. -/
theorem reachable_queues_copy (ops : List Op) :
    (∀ p ∈ (runOps ops NetworkMonitor.init).filteredQueue,
        p ∈ (runOps ops NetworkMonitor.init).packetQueue) ∧
    (∀ p ∈ (runOps ops NetworkMonitor.init).backupQueue,
        ∃ c ∈ (runOps ops NetworkMonitor.init).packetQueue, copyOf p c) ∧
    (∀ op : Op, (runOps ops NetworkMonitor.init).packetQueue.Sublist
        (runOps (ops ++ [op]) NetworkMonitor.init).packetQueue) ∧
    (∀ send : Transmit,
        (runOps (ops ++ [Op.replay send]) NetworkMonitor.init).filteredQueue = []) := by
  have hinit : QueuesCopyCaptured NetworkMonitor.init :=
    ⟨fun p hp => by simp [NetworkMonitor.init] at hp,
     fun p hp => by simp [NetworkMonitor.init] at hp⟩
  have h := copies_runOps ops NetworkMonitor.init hinit
  refine ⟨h.1, h.2, fun op => ?_, fun send => ?_⟩
  · rw [runOps_snoc]
    cases op with
    | capture analyzer reads =>
      show List.Sublist _ (capturePackets analyzer reads _).1.packetQueue
      rw [capturePackets_eq]
      exact List.sublist_append_left _ _
    | filter src dst => exact List.Sublist.refl _
    | replay send =>
      show List.Sublist _ (replayPackets send _).1.packetQueue
      rw [(replayPackets_captured send _).1]
    | retry send =>
      show List.Sublist _ (retryBackupPackets send _).packetQueue
      rw [retryBackupPackets_spec]
  · rw [runOps_snoc]
    show (replayPackets send _).1.filteredQueue = []
    rw [replayPackets_eq]
    split
    · rw [retryBackupPackets_spec, replayDrain_state]
    · rw [replayDrain_state]

/-! Replay: the backup queue when the drain loop has ended -/

theorem framesFrom_fresh (analyzer : Analyzer) (k : Nat) (reads : List Read) :
    ∀ p ∈ framesFrom analyzer k reads, p.retryCount = 0 := by
  intro p hp
  unfold framesFrom at hp
  obtain ⟨kr, _, rfl⟩ := List.mem_map.mp hp
  rfl

theorem captured_fresh_apply (op : Op) (m : NetworkMonitor)
    (h : ∀ p ∈ m.packetQueue, p.retryCount = 0) :
    ∀ p ∈ (Op.apply m op).packetQueue, p.retryCount = 0 := by
  cases op with
  | capture analyzer reads =>
    show ∀ p ∈ (capturePackets analyzer reads m).1.packetQueue, p.retryCount = 0
    rw [capturePackets_eq]
    intro p hp
    rcases List.mem_append.mp hp with ho | hn
    · exact h p ho
    · exact framesFrom_fresh analyzer 1 reads p hn
  | filter src dst => exact h
  | replay send =>
    show ∀ p ∈ (replayPackets send m).1.packetQueue, p.retryCount = 0
    rw [(replayPackets_captured send m).1]
    exact h
  | retry send =>
    show ∀ p ∈ (retryBackupPackets send m).packetQueue, p.retryCount = 0
    rw [retryBackupPackets_spec]
    exact h

theorem captured_fresh_runOps (ops : List Op) (m : NetworkMonitor)
    (h : ∀ p ∈ m.packetQueue, p.retryCount = 0) :
    ∀ p ∈ (runOps ops m).packetQueue, p.retryCount = 0 := by
  induction ops generalizing m with
  | nil => exact h
  | cons op ops ih => exact ih (Op.apply m op) (captured_fresh_apply op m h)

/-- In every session reached from a fresh one, the frames waiting in the
filtered queue have `retryCount` 0. -/
theorem filtered_fresh_runOps (ops : List Op) :
    ∀ p ∈ (runOps ops NetworkMonitor.init).filteredQueue, p.retryCount = 0 := by
  intro p hp
  have hinit : QueuesCopyCaptured NetworkMonitor.init :=
    ⟨fun p hp => by simp [NetworkMonitor.init] at hp,
     fun p hp => by simp [NetworkMonitor.init] at hp⟩
  have hc := (copies_runOps ops NetworkMonitor.init hinit).1 p hp
  exact captured_fresh_runOps ops NetworkMonitor.init
    (fun p hp => by simp [NetworkMonitor.init] at hp) p hc

/-- C4 (amended): when the `while` loop of `replayPackets` has ended, before the
automatic retry, the backup queue is the backup queue from before the call
followed, in order, by the frames whose transmission failed, each unchanged; it
has grown by the failure count; when every transmission failed it holds all
previously filtered frames; and in every session reached from a fresh one
through capture, filter, replay and retry commands the filtered frames, and so
the frames moved to the backup queue, have `retryCount` 0.  `replayPackets`
returns the state of that moment when there was no failure, and otherwise the
state one `retryBackupPackets` pass makes of it. -/
theorem replayDrain_backup (send : Transmit) (m : NetworkMonitor) :
    (replayDrain send m).1.backupQueue =
        m.backupQueue ++ failedFrom send m.sendLog.length m.filteredQueue ∧
    (replayDrain send m).2.failureCount =
        ((failedFrom send m.sendLog.length m.filteredQueue).length : Int) ∧
    ((replayDrain send m).1.backupQueue.length : Int) =
        (m.backupQueue.length : Int) + (replayDrain send m).2.failureCount ∧
    ((∀ kp ∈ m.filteredQueue.enumFrom m.sendLog.length,
        sendFailed (send kp.1 kp.2) kp.2 = true) →
      (replayDrain send m).1.backupQueue = m.backupQueue ++ m.filteredQueue) ∧
    (∀ ops : List Op, m = runOps ops NetworkMonitor.init →
      (∀ p ∈ m.filteredQueue, p.retryCount = 0) ∧
      (∀ p ∈ failedFrom send m.sendLog.length m.filteredQueue, p.retryCount = 0)) ∧
    (replayPackets send m).1 =
      (if (replayDrain send m).2.failureCount > 0 then
        retryBackupPackets send (replayDrain send m).1
      else (replayDrain send m).1) := by
  refine ⟨?_, ?_, ?_, ?_, ?_, replayPackets_eq send m⟩
  · simp [replayDrain, replayLoop_spec]
  · simp [replayDrain, replayLoop_spec]
  · simp [replayDrain, replayLoop_spec]
  · intro h
    simp [replayDrain, replayLoop_spec, failedFrom_all send _ _ h]
  · intro ops hm
    have hf : ∀ p ∈ m.filteredQueue, p.retryCount = 0 := by
      rw [hm]
      exact filtered_fresh_runOps ops
    exact ⟨hf, fun p hp => hf p (mem_failedFrom hp)⟩

/-- Witness for C4: in the session reached by capturing one frame and filtering
its pair, with `send` failing on every call, the drain loop ends with the
captured frame in the backup queue, its `retryCount` 0, and one failure
counted. -/
theorem replayDrain_backup_witness :
    (replayDrain alwaysFail (runOps captureThenFilter NetworkMonitor.init)).1.backupQueue =
      [{ frameAB 1 60 with retryCount := 0 }] ∧
    (replayDrain alwaysFail (runOps captureThenFilter NetworkMonitor.init)).2.failureCount = 1 ∧
    (∀ p ∈ (replayDrain alwaysFail
        (runOps captureThenFilter NetworkMonitor.init)).1.backupQueue, p.retryCount = 0) := by
  have h := replayDrain_backup alwaysFail (runOps captureThenFilter NetworkMonitor.init)
  obtain ⟨h1, _, _, _, h5, _⟩ := h
  have hz := (h5 captureThenFilter rfl).2
  have e : (runOps captureThenFilter NetworkMonitor.init).backupQueue = [] := by decide
  refine ⟨by decide, by decide, ?_⟩
  intro p hp
  rw [h1, e, List.nil_append] at hp
  exact hz p hp

end NetMon
